import Mathlib

/-!
Shallow embedding of the fraud-detection web application (app.py):
the stable categorical hash, the field validator, the feature encoder,
the inference adapter with risk bucketing, the prediction endpoint with
its persistence step, the health endpoint, and the statistics overview.

Machine reals of the source (Python floats) are modelled as exact
rationals; JSON values decoded by the web layer are modelled by the
inductive type JVal.
-/

set_option maxRecDepth 4000

/-- A JSON-ish value as produced by decoding a request body: Python
strings, ints, floats (modelled exactly as rationals), booleans, None. -/
inductive JVal where
  | jstr (s : String)
  | jint (n : Int)
  | jfloat (q : ℚ)
  | jbool (b : Bool)
  | jnull
deriving DecidableEq, Repr

open JVal

/-- Rational from an integer, kept in kernel-computable form. -/
def qOfInt (n : Int) : ℚ := mkRat n 1

/-- Rational from a natural, kept in kernel-computable form. -/
def qOfNat (n : Nat) : ℚ := mkRat n 1

/-- ASCII uppercase of one character, as Python str.upper acts on the
ASCII range (the only range the gender synonym set can meet). -/
def pyCharUpper (c : Char) : Char :=
  if 'a' ≤ c ∧ c ≤ 'z' then Char.ofNat (c.toNat - 32) else c

/-- Python str.upper restricted to ASCII case mapping. -/
def pyUpper (s : String) : String := String.mk (s.data.map pyCharUpper)

/-- Digits of a numeral run, most significant first, as a natural. -/
def digitsVal (ds : List Char) : Nat :=
  ds.foldl (fun acc d => 10 * acc + (d.toNat - 48)) 0

def isAsciiDigit (c : Char) : Bool := '0' ≤ c ∧ c ≤ '9'

def isPySpace (c : Char) : Bool :=
  c = ' ' ∨ c = '\t' ∨ c = '\n' ∨ c = '\r' ∨ c = '\x0b' ∨ c = '\x0c'

/-- Strip leading and trailing whitespace, as Python int()/float() do. -/
def pyStrip (cs : List Char) : List Char :=
  ((cs.dropWhile isPySpace).reverse.dropWhile isPySpace).reverse

/-- Parse the exponent tail of a float literal: empty, or e/E with an
optional sign and at least one digit. -/
def parseExpTail (m : ℚ) (cs : List Char) : Option ℚ :=
  match cs with
  | [] => some m
  | e :: rest =>
    if e = 'e' ∨ e = 'E' then
      let (neg, rest2) :=
        match rest with
        | '+' :: r => (false, r)
        | '-' :: r => (true, r)
        | r => (false, r)
      let ds := rest2.takeWhile isAsciiDigit
      if ds = [] ∨ rest2.dropWhile isAsciiDigit ≠ [] then none
      else
        let ex := digitsVal ds
        some (if neg then m / qOfNat (10 ^ ex) else m * qOfNat (10 ^ ex))
    else none

/-- Parse an unsigned Python float literal body: digits, optional point,
optional fraction digits, optional exponent (at least one digit overall;
the special forms inf and nan are outside this model). -/
def parseUnsignedFloat (cs : List Char) : Option ℚ :=
  let ip := cs.takeWhile isAsciiDigit
  let rest := cs.dropWhile isAsciiDigit
  match rest with
  | '.' :: rest2 =>
    let fp := rest2.takeWhile isAsciiDigit
    let rest3 := rest2.dropWhile isAsciiDigit
    if ip = [] ∧ fp = [] then none
    else
      let m : ℚ := qOfNat (digitsVal ip) + mkRat (digitsVal fp) (10 ^ fp.length)
      parseExpTail m rest3
  | _ =>
    if ip = [] then none else parseExpTail (qOfNat (digitsVal ip)) rest

/-- Python float(s) on a string: strip, optional sign, float body. -/
def pyFloatOfString (s : String) : Option ℚ :=
  match pyStrip s.data with
  | '+' :: cs => parseUnsignedFloat cs
  | '-' :: cs => (parseUnsignedFloat cs).map Neg.neg
  | cs => parseUnsignedFloat cs

/-- Python int(s) on a string: strip, optional sign, digits only. -/
def pyIntOfString (s : String) : Option Int :=
  let core : List Char → Option Nat := fun cs =>
    if cs ≠ [] ∧ cs.all isAsciiDigit then some (digitsVal cs) else none
  match pyStrip s.data with
  | '+' :: cs => (core cs).map Int.ofNat
  | '-' :: cs => (core cs).map (fun n => -(Int.ofNat n))
  | cs => (core cs).map Int.ofNat

/-- Truncation toward zero, as Python int(float) rounds. -/
def ratTrunc (q : ℚ) : Int := q.num.tdiv (Int.ofNat q.den)

/-- Python float(x) over decoded JSON values. -/
def pyFloat : JVal → Option ℚ
  | jint n => some (qOfInt n)
  | jfloat q => some q
  | jbool b => some (if b then qOfNat 1 else qOfNat 0)
  | jstr s => pyFloatOfString s
  | jnull => none

/-- Python int(x) over decoded JSON values. -/
def pyInt : JVal → Option Int
  | jint n => some n
  | jfloat q => some (ratTrunc q)
  | jbool b => some (if b then 1 else 0)
  | jstr s => pyIntOfString s
  | jnull => none

/-- Decimal digits of the fractional part of a nonnegative rational,
fuel-bounded (every JSON float has a terminating decimal expansion). -/
def fracDigits : Nat → ℚ → List Char
  | 0, _ => []
  | fuel + 1, q =>
    if q = 0 then []
    else
      let q10 := q * qOfNat 10
      let d := ratTrunc q10
      Char.ofNat (48 + d.toNat) :: fracDigits fuel (q10 - qOfInt d)

/-- Python str() of a float value (finite decimal rendering). -/
def floatRepr (q : ℚ) : String :=
  let sign := if q < 0 then "-" else ""
  let a := |q|
  let ip := ratTrunc a
  let fr := a - qOfInt ip
  let frs := if fr = 0 then "0" else String.mk (fracDigits 60 fr)
  sign ++ toString ip ++ "." ++ frs

/-- Python str(x) over decoded JSON values. -/
def pyStr : JVal → String
  | jstr s => s
  | jint n => toString n
  | jfloat q => floatRepr q
  | jbool b => if b then "True" else "False"
  | jnull => "None"

/-! ## SHA-256 over byte lists (the hashlib.sha256 collaborator)

Words are naturals reduced modulo 2^32; the round constants are derived,
as in the standard, from the fractional parts of the cube and square
roots of the first primes. -/

def M32 : Nat := 4294967296

def add32 (a b : Nat) : Nat := (a + b) % M32

def rotr (n w : Nat) : Nat := ((w >>> n) ||| (w <<< (32 - n))) % M32

def bigSigma0 (w : Nat) : Nat := (rotr 2 w) ^^^ (rotr 13 w) ^^^ (rotr 22 w)
def bigSigma1 (w : Nat) : Nat := (rotr 6 w) ^^^ (rotr 11 w) ^^^ (rotr 25 w)
def smallSigma0 (w : Nat) : Nat := (rotr 7 w) ^^^ (rotr 18 w) ^^^ (w >>> 3)
def smallSigma1 (w : Nat) : Nat := (rotr 17 w) ^^^ (rotr 19 w) ^^^ (w >>> 10)

def chooseFn (x y z : Nat) : Nat := (x &&& y) ^^^ ((x ^^^ (M32 - 1)) &&& z)
def majFn (x y z : Nat) : Nat := (x &&& y) ^^^ (x &&& z) ^^^ (y &&& z)

/-- Binary-search square root (kernel-computable). -/
def sqrtSearch (n : Nat) : Nat → Nat → Nat → Nat
  | 0, lo, _ => lo
  | fuel + 1, lo, hi =>
    if hi ≤ lo + 1 then lo
    else
      let mid := (lo + hi) / 2
      if mid ^ 2 ≤ n then sqrtSearch n fuel mid hi else sqrtSearch n fuel lo mid

def isqrt (n : Nat) : Nat := sqrtSearch n 130 0 (n + 1)

/-- Binary-search cube root (kernel-computable). -/
def cbrtSearch (n : Nat) : Nat → Nat → Nat → Nat
  | 0, lo, _ => lo
  | fuel + 1, lo, hi =>
    if hi ≤ lo + 1 then lo
    else
      let mid := (lo + hi) / 2
      if mid ^ 3 ≤ n then cbrtSearch n fuel mid hi else cbrtSearch n fuel lo mid

def cbrt (n : Nat) : Nat := cbrtSearch n 130 0 (n + 1)

def first64Primes : List Nat :=
  [2, 3, 5, 7, 11, 13, 17, 19, 23, 29, 31, 37, 41, 43, 47, 53,
   59, 61, 67, 71, 73, 79, 83, 89, 97, 101, 103, 107, 109, 113, 127, 131,
   137, 139, 149, 151, 157, 163, 167, 173, 179, 181, 191, 193, 197, 199, 211, 223,
   227, 229, 233, 239, 241, 251, 257, 263, 269, 271, 277, 281, 283, 293, 307, 311]

/-- SHA-256 round constants: first 32 fractional bits of the cube roots
of the first 64 primes. -/
def sha256K : List Nat := first64Primes.map (fun p => cbrt (p <<< 96) % M32)

/-- SHA-256 initial state: first 32 fractional bits of the square roots
of the first 8 primes. -/
def sha256H0 : List Nat := (first64Primes.take 8).map (fun p => isqrt (p <<< 64) % M32)

/-- Big-endian bytes of a value, fixed width. -/
def beBytes : Nat → Nat → List Nat
  | 0, _ => []
  | n + 1, v => beBytes n (v >>> 8) ++ [v % 256]

/-- SHA-256 padding: 0x80, zeros to 56 mod 64, 8-byte bit length. -/
def padMessage (msg : List Nat) : List Nat :=
  let L := msg.length
  let k := (120 - (L + 1) % 64) % 64
  msg ++ [128] ++ List.replicate k 0 ++ beBytes 8 (8 * L)

/-- Pack bytes into big-endian 32-bit words. -/
def toWords : List Nat → List Nat
  | b0 :: b1 :: b2 :: b3 :: rest =>
    ((b0 <<< 24) ||| (b1 <<< 16) ||| (b2 <<< 8) ||| b3) :: toWords rest
  | _ => []

def chunksAux : Nat → List Nat → List (List Nat)
  | 0, _ => []
  | n + 1, ws => ws.take 16 :: chunksAux n (ws.drop 16)

/-- Split a padded word list into 16-word blocks. -/
def sha256Blocks (ws : List Nat) : List (List Nat) := chunksAux (ws.length / 16) ws

/-- Extend a 16-word block to the 64-word message schedule. -/
def scheduleAux : Nat → List Nat → List Nat
  | 0, ws => ws
  | n + 1, ws =>
    let t := ws.length
    let w := add32 (add32 (smallSigma1 (ws.getD (t - 2) 0)) (ws.getD (t - 7) 0))
                   (add32 (smallSigma0 (ws.getD (t - 15) 0)) (ws.getD (t - 16) 0))
    scheduleAux n (ws ++ [w])

def sha256Schedule (ws : List Nat) : List Nat := scheduleAux 48 ws

/-- One compression round on the 8-word working state. -/
def compressRound (st : List Nat) (k w : Nat) : List Nat :=
  match st with
  | [a, b, c, d, e, f, g, h] =>
    let t1 := add32 h (add32 (bigSigma1 e) (add32 (chooseFn e f g) (add32 k w)))
    let t2 := add32 (bigSigma0 a) (majFn a b c)
    [add32 t1 t2, a, b, c, add32 d t1, e, f, g]
  | other => other

/-- Compress one 16-word block into the chaining state. -/
def compressBlock (hs : List Nat) (block : List Nat) : List Nat :=
  let ws := sha256Schedule block
  let st := (sha256K.zip ws).foldl (fun st kw => compressRound st kw.1 kw.2) hs
  (hs.zip st).map (fun p => add32 p.1 p.2)

/-- SHA-256 digest of a byte list, as the 8 final 32-bit words. -/
def sha256Words (msg : List Nat) : List Nat :=
  (sha256Blocks (toWords (padMessage msg))).foldl compressBlock sha256H0

/-- The digest interpreted big-endian as one unsigned integer, exactly
as int(hexdigest, 16) reads it. -/
def sha256Nat (msg : List Nat) : Nat :=
  (sha256Words msg).foldl (fun acc w => acc * M32 + w) 0

/-- UTF-8 encoding of one code point. -/
def utf8EncodeChar (c : Nat) : List Nat :=
  if c < 128 then [c]
  else if c < 2048 then [192 ||| (c >>> 6), 128 ||| (c &&& 63)]
  else if c < 65536 then
    [224 ||| (c >>> 12), 128 ||| ((c >>> 6) &&& 63), 128 ||| (c &&& 63)]
  else
    [240 ||| (c >>> 18), 128 ||| ((c >>> 12) &&& 63),
     128 ||| ((c >>> 6) &&& 63), 128 ||| (c &&& 63)]

/-- UTF-8 encoding of a string (value.encode() in the source). -/
def utf8Encode (s : String) : List Nat :=
  s.data.foldr (fun c acc => utf8EncodeChar c.toNat ++ acc) []

/-- stable_hash on the string branch: SHA-256 of the UTF-8 bytes, read
as an unsigned integer, reduced modulo 1000. -/
def stableHashStr (s : String) : Nat := sha256Nat (utf8Encode s) % 1000

/-- stable_hash from app.py: strings hash to a bucket in [0, 999], any
non-string value maps to 0. -/
def stable_hash : JVal → Nat
  | jstr s => stableHashStr s
  | _ => 0

/-! ## Field validation (the required-field loop of the predict route) -/

/-- The fixed required-field list, in the order the source iterates. -/
def requiredFields : List String :=
  ["Gender", "Age", "HouseTypeID", "ContactAvaliabilityID", "HomeCountry",
   "AccountNo", "CardExpiryDate", "TransactionAmount", "TransactionCountry",
   "LargePurchase", "ProductID", "CIF", "TransactionCurrencyCode"]

/-- The emptiness test of the source (value in [None, ""]): only None
and the empty string count as empty. -/
def isNullOrEmpty : JVal → Bool
  | jnull => true
  | jstr s => s == ""
  | _ => false

/-- A field fails validation when its key is absent or its value is
None or the empty string. -/
def fieldBad (data : List (String × JVal)) (f : String) : Bool :=
  match data.lookup f with
  | none => true
  | some v => isNullOrEmpty v

/-- The first required field, in the fixed order, that is absent or
empty; none when validation passes. -/
def findMissing (data : List (String × JVal)) : Option String :=
  requiredFields.find? (fieldBad data)

/-- Field access after validation (data[field] in the source; the
default never fires on a validated record). -/
def getJ (data : List (String × JVal)) (f : String) : JVal :=
  (data.lookup f).getD jnull

/-! ## Feature encoding (the DataFrame row literal of the source) -/

/-- float(x) as the encoder uses it; the failure message mirrors the
ValueError text raised by Python. -/
def encFloat (v : JVal) : Except String ℚ :=
  match pyFloat v with
  | some q => .ok q
  | none => .error ("could not convert string to float: '" ++ pyStr v ++ "'")

/-- int(x) as the encoder uses it. -/
def encInt (v : JVal) : Except String Int :=
  match pyInt v with
  | some n => .ok n
  | none => .error ("invalid literal for int() with base 10: '" ++ pyStr v ++ "'")

/-- Gender slot: 1 when the upper-cased string form is one of the fixed
male synonyms, else 0. -/
def encGender (v : JVal) : ℚ :=
  if pyUpper (pyStr v) ∈ ["M", "MALE", "HOMME"] then qOfNat 1 else qOfNat 0

/-- Hash slot: stable_hash(str(x)). -/
def encHash (v : JVal) : ℚ := qOfNat (stable_hash (jstr (pyStr v)))

/-- The 13-slot feature row, in the order of the source dict literal;
the first failing coercion aborts with its message, as the raised
ValueError does. -/
def encodeFeatures (data : List (String × JVal)) : Except String (List ℚ) := do
  let age ← encFloat (getJ data "Age")
  let houseTypeId ← encInt (getJ data "HouseTypeID")
  let contactAvailabilityId ← encInt (getJ data "ContactAvaliabilityID")
  let accountNo ← encInt (getJ data "AccountNo")
  let cardExpiryDate ← encInt (getJ data "CardExpiryDate")
  let transactionAmount ← encFloat (getJ data "TransactionAmount")
  let largePurchase ← encInt (getJ data "LargePurchase")
  let productId ← encInt (getJ data "ProductID")
  let cif ← encInt (getJ data "CIF")
  pure [encGender (getJ data "Gender"), age, qOfInt houseTypeId,
        qOfInt contactAvailabilityId, encHash (getJ data "HomeCountry"),
        qOfInt accountNo, qOfInt cardExpiryDate, transactionAmount,
        encHash (getJ data "TransactionCountry"), qOfInt largePurchase,
        qOfInt productId, qOfInt cif, encHash (getJ data "TransactionCurrencyCode")]

/-! ## Inference adapter and risk bucketing -/

/-- The fitted scaler collaborator; transform may raise. -/
structure Scaler where
  transform : List ℚ → Except String (List ℚ)

/-- The fitted classifier collaborator: its ordered class labels and a
predict_proba call that may raise. -/
structure Model where
  classes : List Int
  predictProba : List ℚ → Except String (List ℚ)

/-- np.where(classes == 1)[0][0] if 1 in classes else 1. -/
def indexFraudOf (classes : List Int) : Nat :=
  if 1 ∈ classes then classes.indexOf 1 else 1

/-- First index of the maximum, as np.argmax (ties keep the earlier
index; only a strictly larger value moves it). -/
def argmaxAux : List ℚ → Nat → Nat → ℚ → Nat
  | [], _, best, _ => best
  | x :: xs, i, best, bv =>
    if bv < x then argmaxAux xs (i + 1) i x else argmaxAux xs (i + 1) best bv

def argmaxIdx : List ℚ → Nat
  | [] => 0
  | x :: xs => argmaxAux xs 1 0 x

/-- The three-tier bucketing of the positive-class probability
(0.7 and 0.4 thresholds of the source). -/
def riskLevel (p : ℚ) : String :=
  if p ≥ mkRat 7 10 then "Élevé"
  else if p ≥ mkRat 4 10 then "Modéré"
  else "Faible"

/-- Scaling, predict_proba, positive-class lookup, argmax label and
bucketing; any collaborator failure or out-of-range index propagates as
the caught exception message. -/
def inferOutcome (m : Model) (sc : Scaler) (x : List ℚ) :
    Except String (Nat × ℚ × String) := do
  let xs ← sc.transform x
  let probas ← m.predictProba xs
  match probas.get? (indexFraudOf m.classes) with
  | none => .error "index out of bounds"
  | some probability =>
    .ok (argmaxIdx probas, probability, riskLevel probability)

/-! ## The prediction endpoint and persistence -/

/-- The stored transaction row: raw input fields as the source passes
them to the ORM (three of them through str()), plus the classification
result. The DB-generated timestamp is outside this model. -/
structure TransactionRec where
  userId : Nat
  gender : JVal
  age : JVal
  houseTypeId : JVal
  contactAvailabilityId : JVal
  homeCountry : JVal
  accountNo : String
  cardExpiryDate : String
  transactionAmount : JVal
  transactionCountry : JVal
  largePurchase : JVal
  productId : JVal
  cif : String
  transactionCurrencyCode : JVal
  fraud_prediction : Nat
  fraud_probability : ℚ
  risk_level : String
deriving DecidableEq

/-- Floor of a rational (kernel-computable form). -/
def ratFloor (q : ℚ) : Int := q.num.fdiv (Int.ofNat q.den)

/-- Round half to even at an integer, as Python round and str.format
round. -/
def halfEvenInt (x : ℚ) : Int :=
  let f := ratFloor x
  let r := x - qOfInt f
  if r < mkRat 1 2 then f
  else if mkRat 1 2 < r then f + 1
  else if f % 2 = 0 then f else f + 1

/-- round(x, nd) of Python, on exact rationals. -/
def pyRound (x : ℚ) (nd : Nat) : ℚ :=
  qOfInt (halfEvenInt (x * qOfNat (10 ^ nd))) / qOfNat (10 ^ nd)

/-- Fixed-point rendering with one decimal, for nonnegative values, as
the f-string {:.1f} format produces for the confidence field. -/
def fixed1 (x : ℚ) : String :=
  let n := halfEvenInt (x * qOfNat 10)
  toString (n.tdiv 10) ++ "." ++ toString ((n.tmod 10).natAbs)

/-- The JSON payload of a successful prediction (timestamp outside the
model). -/
structure ResultPayload where
  id : Nat
  fraud_prediction : Nat
  fraud_probability : ℚ
  risk_level : String
  status : String
  confidence : String
deriving DecidableEq

/-- An HTTP response of the predict route: 200 with a payload, or an
error status with a one-field JSON message. -/
inductive Response where
  | ok (p : ResultPayload)
  | errorResp (status : Nat) (msg : String)
deriving DecidableEq

def Response.isError : Response → Bool
  | .ok _ => false
  | .errorResp _ _ => true

/-- The row the source constructs before commit. -/
def mkTransactionRec (userId : Nat) (data : List (String × JVal))
    (prediction : Nat) (probability : ℚ) (risk : String) : TransactionRec :=
  { userId := userId
    gender := getJ data "Gender"
    age := getJ data "Age"
    houseTypeId := getJ data "HouseTypeID"
    contactAvailabilityId := getJ data "ContactAvaliabilityID"
    homeCountry := getJ data "HomeCountry"
    accountNo := pyStr (getJ data "AccountNo")
    cardExpiryDate := pyStr (getJ data "CardExpiryDate")
    transactionAmount := getJ data "TransactionAmount"
    transactionCountry := getJ data "TransactionCountry"
    largePurchase := getJ data "LargePurchase"
    productId := getJ data "ProductID"
    cif := pyStr (getJ data "CIF")
    transactionCurrencyCode := getJ data "TransactionCurrencyCode"
    fraud_prediction := prediction
    fraud_probability := probability
    risk_level := risk }

/-- The /api/predict route: availability gate, validation, encoding,
inference, bucketing, then the single commit appending one row; every
error path leaves the store untouched.  Any exception inside the try
block surfaces as a 500 with its message. -/
def predict (model : Option Model) (scaler : Option Scaler)
    (data : List (String × JVal)) (userId : Nat) (db : List TransactionRec) :
    Response × List TransactionRec :=
  match model, scaler with
  | some m, some sc =>
    match findMissing data with
    | some f => (.errorResp 400 ("Champ manquant : " ++ f), db)
    | none =>
      match encodeFeatures data with
      | .error e => (.errorResp 500 e, db)
      | .ok x =>
        match inferOutcome m sc x with
        | .error e => (.errorResp 500 e, db)
        | .ok (prediction, probability, risk) =>
          let t := mkTransactionRec userId data prediction probability risk
          let payload : ResultPayload :=
            { id := db.length + 1
              fraud_prediction := prediction
              fraud_probability := probability
              risk_level := risk
              status := if prediction = 1 then "🚨 FRAUDE DÉTECTÉE"
                        else "✅ Transaction légitime"
              confidence := fixed1 (probability * qOfNat 100) ++ "%" }
          (.ok payload, db ++ [t])
  | _, _ => (.errorResp 500 "Modèle non disponible", db)

/-- The /api/health route: status string and the two load flags
(truthiness of the loaded collaborators; timestamp outside the model). -/
def health (model : Option Model) (scaler : Option Scaler) :
    String × Bool × Bool :=
  (if model.isSome && scaler.isSome then "healthy" else "unhealthy",
   model.isSome, scaler.isSome)

/-! ## The statistics overview (the /api/stats route) -/

/-- The amount of a stored row as the Float column holds it. -/
def amountOf (t : TransactionRec) : ℚ := (pyFloat t.transactionAmount).getD (qOfNat 0)

/-- The overview block of get_stats. -/
structure Overview where
  total : Nat
  frauds : Nat
  legitimate : Nat
  fraud_rate : ℚ
  total_amount : ℚ
  fraud_amount : ℚ
deriving DecidableEq

/-- Counts, amounts and the guarded fraud rate over a user's stored
transactions. -/
def statsOverview (ts : List TransactionRec) : Overview :=
  let total := ts.length
  let frauds := (ts.filter (fun t => t.fraud_prediction = 1)).length
  let legitimate := total - frauds
  let total_amount := (ts.map amountOf).sum
  let fraud_amount := ((ts.filter (fun t => t.fraud_prediction = 1)).map amountOf).sum
  { total := total
    frauds := frauds
    legitimate := legitimate
    fraud_rate := if total > 0 then pyRound (qOfNat frauds / qOfNat total * qOfNat 100) 1
                  else qOfNat 0
    total_amount := pyRound total_amount 2
    fraud_amount := pyRound fraud_amount 2 }

/-! ## Bridging lemmas -/

theorem qOfNat_eq (n : Nat) : qOfNat n = (n : ℚ) := by
  simp [qOfNat, Rat.mkRat_one]

theorem qOfInt_eq (n : Int) : qOfInt n = (n : ℚ) := by
  simp [qOfInt, Rat.mkRat_one]

theorem mkRat_div (n : Int) (d : Nat) : mkRat n d = (n : ℚ) / (d : ℚ) := by
  rw [Rat.mkRat_eq_divInt, Rat.divInt_eq_div]
  norm_num

theorem riskLevel_eq (p : ℚ) :
    riskLevel p = if p ≥ 7 / 10 then "Élevé"
                  else if p ≥ 2 / 5 then "Modéré" else "Faible" := by
  have h7 : mkRat 7 10 = (7 : ℚ) / 10 := by rw [mkRat_div]; norm_num
  have h4 : mkRat 4 10 = (2 : ℚ) / 5 := by rw [mkRat_div]; norm_num
  unfold riskLevel
  rw [h7, h4]

theorem halfEvenInt_zero : halfEvenInt 0 = 0 := by
  unfold halfEvenInt ratFloor
  norm_num [qOfInt_eq, mkRat_div, Rat.num_zero]

theorem pyRound_zero (nd : Nat) : pyRound 0 nd = 0 := by
  unfold pyRound
  rw [zero_mul, halfEvenInt_zero]
  simp [qOfInt_eq]

/-- The SHA-256 embedding against the published digest of the empty
message (validates padding, schedule, compression and the prime-derived
constants). -/
theorem sha256_empty_message_vector :
    sha256Nat [] =
      0xe3b0c44298fc1c149afbf4c8996fb92427ae41e4649b934ca495991b7852b855 := by
  decide

/-! ## Claim theorems -/

/-- Claim C2: the categorical hash is the SHA-256 digest of the UTF-8
encoding reduced modulo 1000, lies in [0, 999], depends only on the byte
content (so it is deterministic and case-sensitive: the France/france
buckets differ), and every non-string value maps to 0. -/
theorem stable_hash_spec (s t : String) (n : Int) (q : ℚ) (b : Bool) :
    stable_hash (jstr s) = sha256Nat (utf8Encode s) % 1000
    ∧ stable_hash (jstr s) < 1000
    ∧ (utf8Encode s = utf8Encode t →
        stable_hash (jstr s) = stable_hash (jstr t))
    ∧ stableHashStr "France" ≠ stableHashStr "france"
    ∧ stable_hash (jint n) = 0 ∧ stable_hash (jfloat q) = 0
    ∧ stable_hash (jbool b) = 0 ∧ stable_hash jnull = 0 := by
  refine ⟨rfl, Nat.mod_lt _ (by norm_num), ?_, by decide, rfl, rfl, rfl, rfl⟩
  intro h
  show stableHashStr s = stableHashStr t
  unfold stableHashStr
  rw [h]

/-- Claim C2 witness: the byte-content hypothesis discharged at the
concrete string France. -/
theorem stable_hash_spec_witness :
    stable_hash (jstr "France") = stable_hash (jstr "France") :=
  (stable_hash_spec "France" "France" 0 0 false).2.2.1 rfl

/-- Claim C3: risk bucketing is the total three-way partition of the
probability line at 0.70 and 0.40, with the spec's sample points. -/
theorem risk_bucketing_partition (p : ℚ) :
    (p ≥ 7 / 10 → riskLevel p = "Élevé")
    ∧ (2 / 5 ≤ p ∧ p < 7 / 10 → riskLevel p = "Modéré")
    ∧ (p < 2 / 5 → riskLevel p = "Faible")
    ∧ riskLevel (7 / 10) = "Élevé"
    ∧ riskLevel (6999 / 10000) = "Modéré"
    ∧ riskLevel (2 / 5) = "Modéré"
    ∧ riskLevel (3999 / 10000) = "Faible"
    ∧ riskLevel 0 = "Faible"
    ∧ riskLevel 1 = "Élevé" := by
  refine ⟨?_, ?_, ?_, ?_, ?_, ?_, ?_, ?_, ?_⟩ <;> rw [riskLevel_eq]
  · intro hp; rw [if_pos hp]
  · rintro ⟨h1, h2⟩
    rw [if_neg (by linarith), if_pos (by linarith)]
  · intro hp
    rw [if_neg (by linarith), if_neg (by linarith)]
  · rw [if_pos (by norm_num)]
  · rw [if_neg (by norm_num), if_pos (by norm_num)]
  · rw [if_neg (by norm_num), if_pos (by norm_num)]
  · rw [if_neg (by norm_num), if_neg (by norm_num)]
  · rw [if_neg (by norm_num), if_neg (by norm_num)]
  · rw [if_pos (by norm_num)]

/-- Claim C3 witness: the three range hypotheses discharged at the
boundary points 0.70, 0.40 and 0. -/
theorem risk_bucketing_partition_witness :
    riskLevel (7 / 10) = "Élevé" ∧ riskLevel (2 / 5) = "Modéré"
    ∧ riskLevel 0 = "Faible" :=
  ⟨(risk_bucketing_partition (7 / 10)).1 (le_refl _),
   (risk_bucketing_partition (2 / 5)).2.1 ⟨le_refl _, by norm_num⟩,
   (risk_bucketing_partition 0).2.2.1 (by norm_num)⟩

/-- Claim C5: the gender slot is a closed two-valued encoding: 1 exactly
when the upper-cased value is in the fixed synonym set m/male/homme,
and 0 for every other string, including Female, Unknown and xyz. -/
theorem gender_encoding_closed (s : String) :
    (encGender (jstr s) = qOfNat 1 ↔ pyUpper s ∈ ["M", "MALE", "HOMME"])
    ∧ (encGender (jstr s) = qOfNat 1 ∨ encGender (jstr s) = qOfNat 0)
    ∧ encGender (jstr "m") = qOfNat 1
    ∧ encGender (jstr "male") = qOfNat 1
    ∧ encGender (jstr "homme") = qOfNat 1
    ∧ encGender (jstr "M") = qOfNat 1
    ∧ encGender (jstr "Female") = qOfNat 0
    ∧ encGender (jstr "Unknown") = qOfNat 0
    ∧ encGender (jstr "xyz") = qOfNat 0 := by
  refine ⟨?_, ?_, by decide, by decide, by decide, by decide, by decide,
          by decide, by decide⟩
  · by_cases hc : pyUpper s ∈ ["M", "MALE", "HOMME"]
    · simp [encGender, pyStr, hc]
    · simp [encGender, pyStr, hc]
      decide
  · by_cases hc : pyUpper s ∈ ["M", "MALE", "HOMME"]
    · left; simp [encGender, pyStr, hc]
    · right; simp [encGender, pyStr, hc]

/-- Claim C7: with either collaborator missing, every prediction call
answers the 500 unavailable error with the store untouched, whatever the
body; and the health status is healthy exactly when both are loaded. -/
theorem model_unavailable_gate_and_health (m : Option Model) (sc : Option Scaler)
    (data : List (String × JVal)) (u : Nat) (db : List TransactionRec) :
    ((m = none ∨ sc = none) →
      predict m sc data u db = (.errorResp 500 "Modèle non disponible", db))
    ∧ ((health m sc).1 = "healthy" ↔ m.isSome = true ∧ sc.isSome = true) := by
  constructor
  · rintro (h | h)
    · subst h; cases sc <;> rfl
    · subst h; cases m <;> rfl
  · cases m <;> cases sc <;> simp [health]

/-- Claim C7 witness: the unavailability hypothesis discharged with no
model loaded. -/
theorem model_unavailable_gate_and_health_witness :
    predict none none [] 0 [] = (.errorResp 500 "Modèle non disponible", []) :=
  (model_unavailable_gate_and_health none none [] 0 []).1 (Or.inl rfl)

/-- Claim C10: a user with no stored transactions gets an all-zero
overview; the fraud rate is 0 from the guard, not from a division. -/
theorem stats_empty_overview (ts : List TransactionRec) :
    ts = [] →
    statsOverview ts =
      { total := 0, frauds := 0, legitimate := 0, fraud_rate := 0,
        total_amount := 0, fraud_amount := 0 } := by
  intro h
  subst h
  unfold statsOverview
  simp [qOfNat_eq, pyRound_zero]

/-- Claim C10 witness: the empty-store hypothesis discharged at the
empty list. -/
theorem stats_empty_overview_witness :
    statsOverview [] =
      { total := 0, frauds := 0, legitimate := 0, fraud_rate := 0,
        total_amount := 0, fraud_amount := 0 } :=
  stats_empty_overview [] rfl

/-! ## Validator and encoder lemmas -/

theorem bind_ok {α β : Type} (x : Except String α) (f : α → Except String β)
    (b : β) : (x >>= f) = .ok b → ∃ a, x = .ok a ∧ f a = .ok b := by
  cases x with
  | error e => intro h; simp [bind, Except.bind] at h
  | ok a => intro h; exact ⟨a, rfl, by simpa [bind, Except.bind] using h⟩

theorem find?_some_first {α : Type} (p : α → Bool) :
    ∀ (l : List α) (a : α), l.find? p = some a →
      ∃ i, l.get? i = some a ∧
        ∀ j, j < i → ∀ b, l.get? j = some b → p b = false := by
  intro l
  induction l with
  | nil => intro a h; simp [List.find?] at h
  | cons x xs ih =>
    intro a h
    by_cases hx : p x
    · rw [List.find?_cons_of_pos _ hx] at h
      cases h
      exact ⟨0, rfl, fun j hj => absurd hj (Nat.not_lt_zero j)⟩
    · rw [List.find?_cons_of_neg _ hx] at h
      obtain ⟨i, hget, hbefore⟩ := ih a h
      refine ⟨i + 1, by simpa using hget, ?_⟩
      intro j hj b hb
      cases j with
      | zero =>
        simp only [List.get?] at hb
        cases hb
        exact Bool.not_eq_true _ ▸ (by simpa using hx)
      | succ k =>
        exact hbefore k (Nat.lt_of_succ_lt_succ hj) b (by simpa using hb)

/-- Claim C4: the validator accepts exactly when all 13 required fields
are present and neither null nor empty; otherwise it reports the first
bad field in the fixed order (terminal on first failure) as a 400; the
values 0 and false count as valid. -/
theorem field_validation_first_missing (data : List (String × JVal)) :
    (findMissing data = none ↔ ∀ f ∈ requiredFields, fieldBad data f = false)
    ∧ (∀ f, findMissing data = some f →
        fieldBad data f = true ∧
        ∃ i, requiredFields.get? i = some f ∧
          ∀ j, j < i → ∀ g, requiredFields.get? j = some g →
            fieldBad data g = false)
    ∧ (∀ f v, data.lookup f = some v → isNullOrEmpty v = false →
        fieldBad data f = false)
    ∧ (∀ f, data.lookup f = none → fieldBad data f = true)
    ∧ isNullOrEmpty (jint 0) = false
    ∧ isNullOrEmpty (jbool false) = false
    ∧ isNullOrEmpty jnull = true
    ∧ isNullOrEmpty (jstr "") = true
    ∧ (∀ m sc u db f, findMissing data = some f →
        predict (some m) (some sc) data u db =
          (.errorResp 400 ("Champ manquant : " ++ f), db)) := by
  refine ⟨?_, ?_, ?_, ?_, rfl, rfl, rfl, rfl, ?_⟩
  · unfold findMissing
    rw [List.find?_eq_none]
    constructor
    · intro h f hf
      exact Bool.not_eq_true _ ▸ (by simpa using h f hf)
    · intro h f hf
      simp [h f hf]
  · intro f h
    refine ⟨List.find?_some h, ?_⟩
    exact find?_some_first (fieldBad data) requiredFields f h
  · intro f v hv he
    unfold fieldBad
    rw [hv]
    exact he
  · intro f hv
    unfold fieldBad
    rw [hv]
  · intro m sc u db f h
    unfold predict
    rw [h]

/-- Claim C4 witness: a record carrying only a Gender is rejected naming
Age, the first absent field, as a 400; its present field validates. -/
theorem field_validation_first_missing_witness :
    (fieldBad [("Gender", jstr "F")] "Age" = true ∧
      ∃ i, requiredFields.get? i = some "Age" ∧
        ∀ j, j < i → ∀ g, requiredFields.get? j = some g →
          fieldBad [("Gender", jstr "F")] g = false)
    ∧ predict (some ⟨[0, 1], fun _ => .ok []⟩) (some ⟨fun x => .ok x⟩)
        [("Gender", jstr "F")] 1 [] =
        (.errorResp 400 ("Champ manquant : " ++ "Age"), [])
    ∧ fieldBad [("Gender", jstr "F")] "Gender" = false :=
  ⟨(field_validation_first_missing [("Gender", jstr "F")]).2.1 "Age" rfl,
   (field_validation_first_missing [("Gender", jstr "F")]).2.2.2.2.2.2.2.2
     ⟨[0, 1], fun _ => .ok []⟩ ⟨fun x => .ok x⟩ 1 [] "Age" rfl,
   (field_validation_first_missing [("Gender", jstr "F")]).2.2.1 "Gender"
     (jstr "F") rfl rfl⟩

/-- Claim C1: a successful encoding is exactly the 13-slot vector in the
fixed order Gender, Age, HouseTypeID, ContactAvaliabilityID,
HomeCountry(hashed), AccountNo, CardExpiryDate, TransactionAmount,
TransactionCountry(hashed), LargePurchase, ProductID, CIF,
TransactionCurrencyCode(hashed), each slot a function of its own field
alone. -/
theorem feature_vector_order (data : List (String × JVal)) (v : List ℚ) :
    encodeFeatures data = .ok v →
    ∃ age houseTypeId contactAvailabilityId accountNo cardExpiryDate
      transactionAmount largePurchase productId cif,
      encFloat (getJ data "Age") = .ok age
      ∧ encInt (getJ data "HouseTypeID") = .ok houseTypeId
      ∧ encInt (getJ data "ContactAvaliabilityID") = .ok contactAvailabilityId
      ∧ encInt (getJ data "AccountNo") = .ok accountNo
      ∧ encInt (getJ data "CardExpiryDate") = .ok cardExpiryDate
      ∧ encFloat (getJ data "TransactionAmount") = .ok transactionAmount
      ∧ encInt (getJ data "LargePurchase") = .ok largePurchase
      ∧ encInt (getJ data "ProductID") = .ok productId
      ∧ encInt (getJ data "CIF") = .ok cif
      ∧ v = [encGender (getJ data "Gender"), age, qOfInt houseTypeId,
             qOfInt contactAvailabilityId, encHash (getJ data "HomeCountry"),
             qOfInt accountNo, qOfInt cardExpiryDate, transactionAmount,
             encHash (getJ data "TransactionCountry"), qOfInt largePurchase,
             qOfInt productId, qOfInt cif,
             encHash (getJ data "TransactionCurrencyCode")] := by
  intro h
  unfold encodeFeatures at h
  obtain ⟨age, h1, h⟩ := bind_ok _ _ _ h
  obtain ⟨houseTypeId, h2, h⟩ := bind_ok _ _ _ h
  obtain ⟨contactAvailabilityId, h3, h⟩ := bind_ok _ _ _ h
  obtain ⟨accountNo, h4, h⟩ := bind_ok _ _ _ h
  obtain ⟨cardExpiryDate, h5, h⟩ := bind_ok _ _ _ h
  obtain ⟨transactionAmount, h6, h⟩ := bind_ok _ _ _ h
  obtain ⟨largePurchase, h7, h⟩ := bind_ok _ _ _ h
  obtain ⟨productId, h8, h⟩ := bind_ok _ _ _ h
  obtain ⟨cif, h9, h⟩ := bind_ok _ _ _ h
  refine ⟨age, houseTypeId, contactAvailabilityId, accountNo, cardExpiryDate,
          transactionAmount, largePurchase, productId, cif,
          h1, h2, h3, h4, h5, h6, h7, h8, h9, ?_⟩
  simpa [pure, Except.pure] using h.symm

/-- The §8 scenario request of the spec, as a decoded JSON record. -/
def wReq : List (String × JVal) :=
  [("Gender", jstr "Female"), ("Age", jint 34), ("HouseTypeID", jint 2),
   ("ContactAvaliabilityID", jint 1), ("HomeCountry", jstr "France"),
   ("AccountNo", jint 123456), ("CardExpiryDate", jint 1225),
   ("TransactionAmount", jint 50000), ("TransactionCountry", jstr "Nigeria"),
   ("LargePurchase", jint 1), ("ProductID", jint 7), ("CIF", jint 998877),
   ("TransactionCurrencyCode", jstr "EUR")]

/-- The encoded vector of the §8 scenario (hash buckets 931, 9, 246). -/
def wVec : List ℚ :=
  [qOfNat 0, qOfInt 34, qOfInt 2, qOfInt 1, qOfNat 931, qOfInt 123456,
   qOfInt 1225, qOfInt 50000, qOfNat 9, qOfInt 1, qOfInt 7, qOfInt 998877,
   qOfNat 246]

/-- Claim C1 witness: the encoding hypothesis discharged on the concrete
§8 scenario record. -/
theorem feature_vector_order_witness :
    ∃ age houseTypeId contactAvailabilityId accountNo cardExpiryDate
      transactionAmount largePurchase productId cif,
      encFloat (getJ wReq "Age") = .ok age
      ∧ encInt (getJ wReq "HouseTypeID") = .ok houseTypeId
      ∧ encInt (getJ wReq "ContactAvaliabilityID") = .ok contactAvailabilityId
      ∧ encInt (getJ wReq "AccountNo") = .ok accountNo
      ∧ encInt (getJ wReq "CardExpiryDate") = .ok cardExpiryDate
      ∧ encFloat (getJ wReq "TransactionAmount") = .ok transactionAmount
      ∧ encInt (getJ wReq "LargePurchase") = .ok largePurchase
      ∧ encInt (getJ wReq "ProductID") = .ok productId
      ∧ encInt (getJ wReq "CIF") = .ok cif
      ∧ wVec = [encGender (getJ wReq "Gender"), age, qOfInt houseTypeId,
             qOfInt contactAvailabilityId, encHash (getJ wReq "HomeCountry"),
             qOfInt accountNo, qOfInt cardExpiryDate, transactionAmount,
             encHash (getJ wReq "TransactionCountry"), qOfInt largePurchase,
             qOfInt productId, qOfInt cif,
             encHash (getJ wReq "TransactionCurrencyCode")] :=
  feature_vector_order wReq wVec (by rfl)

/-! ## Persistence atomicity -/

/-- Claim C9: per request, either the full stored row (all input
fields plus the classification result) is appended, or, on any error
response, the store is left exactly as it was. -/
theorem persistence_atomic (m : Option Model) (sc : Option Scaler)
    (data : List (String × JVal)) (u : Nat) (db : List TransactionRec)
    (r : Response) (db' : List TransactionRec) :
    predict m sc data u db = (r, db') →
    (r.isError = true → db' = db)
    ∧ (r.isError = false → ∃ prediction probability risk,
        db' = db ++ [mkTransactionRec u data prediction probability risk]) := by
  intro h
  unfold predict at h
  split at h
  · split at h
    · cases h
      exact ⟨fun _ => rfl, fun hf => by simp [Response.isError] at hf⟩
    · split at h
      · cases h
        exact ⟨fun _ => rfl, fun hf => by simp [Response.isError] at hf⟩
      · split at h
        · cases h
          exact ⟨fun _ => rfl, fun hf => by simp [Response.isError] at hf⟩
        · cases h
          exact ⟨fun ht => by simp [Response.isError] at ht,
                 fun _ => ⟨_, _, _, rfl⟩⟩
  · cases h
    exact ⟨fun _ => rfl, fun hf => by simp [Response.isError] at hf⟩

/-- Claim C9 witness: the outcome hypothesis discharged on a concrete
erroring call, whose error leaves the store empty. -/
theorem persistence_atomic_witness :
    ([] : List TransactionRec) = [] :=
  (persistence_atomic none none [] 0 []
    (.errorResp 500 "Modèle non disponible") [] rfl).1 rfl

/-! ## The inference adapter: positive-class index and argmax -/

theorem argmaxAux_spec (xs : List ℚ) : ∀ (i best : Nat) (bv : ℚ),
    (argmaxAux xs i best bv = best ∧ ∀ y ∈ xs, y ≤ bv)
    ∨ (∃ k, ∃ (hk : k < xs.length), argmaxAux xs i best bv = i + k
        ∧ bv < xs.get ⟨k, hk⟩ ∧ ∀ y ∈ xs, y ≤ xs.get ⟨k, hk⟩) := by
  induction xs with
  | nil => intro i best bv; left; exact ⟨rfl, by simp⟩
  | cons x xs ih =>
    intro i best bv
    by_cases hx : bv < x
    · rcases ih (i + 1) i x with ⟨heq, hall⟩ | ⟨k, hk, heq, hgt, hall⟩
      · right
        refine ⟨0, by simp, ?_, by simpa using hx, ?_⟩
        · simp only [argmaxAux, if_pos hx, heq]; omega
        · intro y hy
          rcases List.mem_cons.mp hy with h | h
          · subst h; simp
          · simpa using hall y h
      · right
        refine ⟨k + 1, by simpa using Nat.succ_lt_succ hk, ?_, ?_, ?_⟩
        · simp only [argmaxAux, if_pos hx, heq]; omega
        · simpa using lt_trans hx hgt
        · intro y hy
          rcases List.mem_cons.mp hy with h | h
          · subst h; simpa using le_of_lt hgt
          · simpa using hall y h
    · rcases ih (i + 1) best bv with ⟨heq, hall⟩ | ⟨k, hk, heq, hgt, hall⟩
      · left
        refine ⟨by simp only [argmaxAux, if_neg hx, heq], ?_⟩
        intro y hy
        rcases List.mem_cons.mp hy with h | h
        · subst h; exact not_lt.mp hx
        · exact hall y h
      · right
        refine ⟨k + 1, by simpa using Nat.succ_lt_succ hk, ?_, ?_, ?_⟩
        · simp only [argmaxAux, if_neg hx, heq]; omega
        · simpa using hgt
        · intro y hy
          rcases List.mem_cons.mp hy with h | h
          · subst h
            simpa using le_trans (not_lt.mp hx) (le_of_lt hgt)
          · simpa using hall y h

theorem getD_of_lt : ∀ (l : List ℚ) (n : Nat) (h : n < l.length),
    l.getD n 0 = l.get ⟨n, h⟩ := by
  intro l
  induction l with
  | nil => intro n h; simp at h
  | cons a as ih =>
    intro n h
    cases n with
    | zero => rfl
    | succ k => simpa using ih k (by simpa using h)

theorem argmaxIdx_spec (x : ℚ) (xs : List ℚ) :
    argmaxIdx (x :: xs) < (x :: xs).length
    ∧ ∀ j (hj : j < (x :: xs).length),
        (x :: xs).get ⟨j, hj⟩ ≤ (x :: xs).getD (argmaxIdx (x :: xs)) 0 := by
  simp only [argmaxIdx]
  rcases argmaxAux_spec xs 1 0 x with ⟨heq, hall⟩ | ⟨k, hk, heq, hgt, hall⟩
  · rw [heq]
    refine ⟨by simp, ?_⟩
    intro j hj
    rw [List.getD_cons_zero]
    cases j with
    | zero => simp
    | succ n =>
      simpa using hall _ (xs.get_mem n (by simpa using hj))
  · have h1k : 1 + k = k + 1 := Nat.add_comm 1 k
    rw [heq, h1k]
    constructor
    · simpa using Nat.succ_lt_succ hk
    · intro j hj
      rw [List.getD_cons_succ, getD_of_lt xs k hk]
      cases j with
      | zero => simpa using le_of_lt hgt
      | succ n =>
        simpa using hall _ (xs.get_mem n (by simpa using hj))

/-- Claim C6: on a successful inference, the positive-class probability
is the distribution entry at the index of label 1 when present among the
model's classes and at index 1 otherwise, and the predicted label is the
argmax over the full distribution (an index carrying a maximal
probability), so it is not derived by thresholding the positive-class
probability. -/
theorem positive_class_and_argmax (m : Model) (sc : Scaler)
    (x xs probas : List ℚ)
    (ht : sc.transform x = .ok xs)
    (hp : m.predictProba xs = .ok probas)
    (hb : indexFraudOf m.classes < probas.length) :
    inferOutcome m sc x =
      .ok (argmaxIdx probas, probas.get ⟨indexFraudOf m.classes, hb⟩,
           riskLevel (probas.get ⟨indexFraudOf m.classes, hb⟩))
    ∧ (1 ∈ m.classes → indexFraudOf m.classes = m.classes.indexOf 1)
    ∧ (1 ∉ m.classes → indexFraudOf m.classes = 1)
    ∧ ∀ j (hj : j < probas.length), argmaxIdx probas < probas.length
        ∧ probas.get ⟨j, hj⟩ ≤ probas.getD (argmaxIdx probas) 0 := by
  refine ⟨?_, fun h1 => by simp [indexFraudOf, h1],
          fun h1 => by simp [indexFraudOf, h1], ?_⟩
  · unfold inferOutcome
    rw [ht]
    show (m.predictProba xs >>= _) = _
    rw [hp]
    show (match probas.get? (indexFraudOf m.classes) with
          | none => Except.error "index out of bounds"
          | some probability =>
            Except.ok (argmaxIdx probas, probability, riskLevel probability)) = _
    rw [List.get?_eq_get hb]
  · intro j hj
    match probas, hj with
    | a :: as, hj =>
      obtain ⟨ha, hmax⟩ := argmaxIdx_spec a as
      exact ⟨ha, hmax j hj⟩

/-- A two-class stub model that knows label 1. -/
def sModel : Model := ⟨[0, 1], fun _ => .ok [mkRat 3 20, mkRat 17 20]⟩

/-- A stub model whose class list does not contain label 1. -/
def sModelNoOne : Model := ⟨[0], fun _ => .ok [mkRat 1 4, mkRat 3 4]⟩

/-- An identity stub scaler. -/
def sScaler : Scaler := ⟨fun x => .ok x⟩

/-- Claim C6 witness: the collaborator and bounds hypotheses discharged
on concrete stub collaborators, once with label 1 known (probability
taken at its index) and once without it (fallback index 1). -/
theorem positive_class_and_argmax_witness :
    inferOutcome sModel sScaler wVec = .ok (1, mkRat 17 20, "Élevé")
    ∧ indexFraudOf sModelNoOne.classes = 1 := by
  constructor
  · have h := (positive_class_and_argmax sModel sScaler wVec wVec
      [mkRat 3 20, mkRat 17 20] rfl rfl (by decide)).1
    rw [h]
    rfl
  · exact (positive_class_and_argmax sModelNoOne sScaler wVec wVec
      [mkRat 1 4, mkRat 3 4] rfl rfl (by decide)).2.2.1 (by decide)

/-! ## Invalid numeric fields -/

/-- HTTP status carried by a response of the predict route. -/
def responseStatus : Response → Nat
  | .ok _ => 200
  | .errorResp s _ => s

/-- The §8 scenario record with a non-numeric Age, which passes the
presence check but fails float coercion. -/
def wBadAge : List (String × JVal) :=
  [("Gender", jstr "Female"), ("Age", jstr "abc"), ("HouseTypeID", jint 2),
   ("ContactAvaliabilityID", jint 1), ("HomeCountry", jstr "France"),
   ("AccountNo", jint 123456), ("CardExpiryDate", jint 1225),
   ("TransactionAmount", jint 50000), ("TransactionCountry", jstr "Nigeria"),
   ("LargePurchase", jint 1), ("ProductID", jint 7), ("CIF", jint 998877),
   ("TransactionCurrencyCode", jstr "EUR")]

/-- Claim C8 counterexample: with loaded collaborators and Age present
but not numeric, the route answers the coercion failure with HTTP 500
(the generic exception handler), not the claimed 400. -/
theorem invalid_numeric_field_counterexample :
    (predict (some sModel) (some sScaler) wBadAge 1 []).1
      = .errorResp 500 "could not convert string to float: 'abc'"
    ∧ responseStatus (predict (some sModel) (some sScaler) wBadAge 1 []).1
      = 500 := by
  exact ⟨rfl, rfl⟩

/-- Claim C8 (amended): a request whose fields all pass the presence
check but whose numeric coercion fails is answered with the coercion
error as an HTTP 500 response (and the store is untouched). -/
theorem invalid_numeric_field_http_500 (m : Model) (sc : Scaler)
    (data : List (String × JVal)) (u : Nat) (db : List TransactionRec)
    (e : String) :
    findMissing data = none → encodeFeatures data = .error e →
    predict (some m) (some sc) data u db = (.errorResp 500 e, db) := by
  intro h1 h2
  unfold predict
  rw [h1, h2]

/-- Claim C8 witness: the validation and coercion-failure hypotheses
discharged on the concrete bad-Age record. -/
theorem invalid_numeric_field_http_500_witness :
    predict (some sModel) (some sScaler) wBadAge 1 [] =
      (.errorResp 500 "could not convert string to float: 'abc'", []) :=
  invalid_numeric_field_http_500 sModel sScaler wBadAge 1 []
    "could not convert string to float: 'abc'" rfl rfl
